import Mathlib

/-!
Verification of `streamlit_app.py` (contaminant analysis dashboard).

The script loads two CSV tables (monitoring stations and narrow
measurement results), normalizes station identifiers, filters
measurements by contaminant / value range / date range, resolves the
referenced stations, and renders a map and a trend chart.

Shallow embedding conventions:
* a dataframe is a `List` of row structures, in file order;
* a CSV cell that pandas may fail to parse is a `RawCell`: `missing`
  (NaN / empty, dropped by `dropna`), `bad` (present but unparseable
  text, turned into NaN only by an explicit `to_numeric`/`to_datetime`
  with coercing errors), or `val` (a parsed value);
* float measurement values are modelled by `ℚ`;
* an `ActivityStartDate` datetime is modelled by a `ℕ` timestamp in
  seconds; taking the `.date()` of a datetime is integer division by
  `86400` (`dateOf`), which forgets the time of day;
* strings subject to `.str.strip().str.lower()` are `List Char`.
-/

namespace Lab10

/-! ## Identifier normalization (streamlit_app.py lines 45-46) -/

/-- A station identifier, as the list of characters of the string. -/
abbrev Ident := List Char

/-- Python `str.strip()`: drop whitespace from both ends. -/
def stripId (s : Ident) : Ident :=
  (s.dropWhile Char.isWhitespace).rdropWhile Char.isWhitespace

/-- Python `str.lower()`: lowercase every character. -/
def lowerId (s : Ident) : Ident :=
  s.map Char.toLower

/-- `.str.strip().str.lower()` applied to one identifier. -/
def normalizeId (s : Ident) : Ident :=
  lowerId (stripId s)

/-! ### Character-level facts about `Char.toLower` -/

theorem char_toNat_ofNat_of_valid {n : Nat} (h : n.isValidChar) :
    (Char.ofNat n).toNat = n := by
  rw [Char.ofNat, dif_pos h]
  rfl

theorem char_toLower_toNat (c : Char) :
    (Char.toLower c).toNat = if 65 ≤ c.toNat ∧ c.toNat ≤ 90 then c.toNat + 32 else c.toNat := by
  by_cases h : 65 ≤ c.toNat ∧ c.toNat ≤ 90
  · have hv : (c.toNat + 32).isValidChar := by
      left
      omega
    rw [if_pos h]
    show (if c.toNat ≥ 65 ∧ c.toNat ≤ 90 then Char.ofNat (c.toNat + 32) else c).toNat = _
    rw [if_pos ⟨h.1, h.2⟩]
    exact char_toNat_ofNat_of_valid hv
  · rw [if_neg h]
    show (if c.toNat ≥ 65 ∧ c.toNat ≤ 90 then Char.ofNat (c.toNat + 32) else c).toNat = _
    rw [if_neg (fun hc => h ⟨hc.1, hc.2⟩)]

theorem char_eq_iff_toNat_eq {c d : Char} : c = d ↔ c.toNat = d.toNat := by
  constructor
  · intro h
    rw [h]
  · intro h
    apply Char.eq_of_val_eq
    exact UInt32.toNat.inj h

theorem char_not_ws_of_65_le {d : Char} (h : 65 ≤ d.toNat) :
    d.isWhitespace = false := by
  unfold Char.isWhitespace
  simp only [Bool.or_eq_false_iff, decide_eq_false_iff_not]
  refine ⟨⟨⟨?_, ?_⟩, ?_⟩, ?_⟩ <;>
    · intro e
      rw [char_eq_iff_toNat_eq] at e
      rw [e] at h
      revert h
      decide

theorem isWhitespace_toLower (c : Char) :
    (Char.toLower c).isWhitespace = c.isWhitespace := by
  by_cases h : 65 ≤ c.toNat ∧ c.toNat ≤ 90
  · have h1 : (Char.toLower c).toNat = c.toNat + 32 := by
      rw [char_toLower_toNat, if_pos h]
    rw [char_not_ws_of_65_le (by omega), char_not_ws_of_65_le h.1]
  · have h1 : Char.toLower c = c := by
      rw [char_eq_iff_toNat_eq, char_toLower_toNat, if_neg h]
    rw [h1]

theorem toLower_toLower (c : Char) :
    Char.toLower (Char.toLower c) = Char.toLower c := by
  rw [char_eq_iff_toNat_eq]
  have hlow := char_toLower_toNat c
  have hlow2 := char_toLower_toNat (Char.toLower c)
  by_cases h : 65 ≤ c.toNat ∧ c.toNat ≤ 90
  · rw [if_pos h] at hlow
    rw [hlow2, hlow, if_neg (by omega)]
  · rw [if_neg h] at hlow
    rw [hlow2, hlow, if_neg h]

/-! ### Normalization is idempotent -/

theorem dropWhile_eq_self_of_head (p : α → Bool) (l : List α)
    (h : ∀ x, l.head? = some x → p x = false) : l.dropWhile p = l := by
  cases l with
  | nil => rfl
  | cons a t =>
    have ha : p a = false := h a rfl
    rw [List.dropWhile_cons, if_neg (by rw [ha]; exact Bool.false_ne_true)]

theorem dropWhile_stripId (s : Ident) :
    (stripId s).dropWhile Char.isWhitespace = stripId s := by
  apply dropWhile_eq_self_of_head
  intro x hx
  obtain ⟨t, ht⟩ := List.rdropWhile_prefix Char.isWhitespace (s.dropWhile Char.isWhitespace)
  have hhead : (s.dropWhile Char.isWhitespace).head? = some x := by
    rw [← ht, List.head?_append]
    show ((stripId s).head?).or t.head? = some x
    rw [hx]
    rfl
  have hmatch := List.head?_dropWhile_not Char.isWhitespace s
  rw [hhead] at hmatch
  exact hmatch

theorem stripId_stripId (s : Ident) : stripId (stripId s) = stripId s := by
  show ((stripId s).dropWhile Char.isWhitespace).rdropWhile Char.isWhitespace = stripId s
  rw [dropWhile_stripId]
  exact List.rdropWhile_idempotent _ _

theorem rdropWhile_map (f : α → β) (p : β → Bool) (l : List α) :
    (l.map f).rdropWhile p = (l.rdropWhile (p ∘ f)).map f := by
  unfold List.rdropWhile
  rw [← List.map_reverse, List.dropWhile_map, ← List.map_reverse]

theorem ws_comp_toLower : (Char.isWhitespace ∘ Char.toLower) = Char.isWhitespace :=
  funext isWhitespace_toLower

theorem stripId_lowerId (s : Ident) : stripId (lowerId s) = lowerId (stripId s) := by
  show ((s.map Char.toLower).dropWhile Char.isWhitespace).rdropWhile Char.isWhitespace =
    ((s.dropWhile Char.isWhitespace).rdropWhile Char.isWhitespace).map Char.toLower
  rw [List.dropWhile_map, ws_comp_toLower, rdropWhile_map, ws_comp_toLower]

theorem lowerId_lowerId (s : Ident) : lowerId (lowerId s) = lowerId s := by
  unfold lowerId
  rw [List.map_map]
  apply List.map_congr_left
  intro a _
  exact toLower_toLower a

theorem normalizeId_idem (s : Ident) : normalizeId (normalizeId s) = normalizeId s := by
  unfold normalizeId
  rw [stripId_lowerId, stripId_stripId, lowerId_lowerId]

/-! ## Data model -/

/-- A raw CSV cell as pandas sees it after `read_csv`: either missing
(NaN, removed by `dropna`), present but not parseable as the target type
(`bad`, only turned into NaN by an explicit coercing conversion), or a
parsed value. -/
inductive RawCell (α : Type) where
  | missing : RawCell α
  | bad : RawCell α
  | val : α → RawCell α
deriving DecidableEq, Repr

/-- `pandas.notna` on a raw cell. -/
def RawCell.present : RawCell α → Bool
  | .missing => false
  | _ => true

/-- `pd.to_numeric(x, errors = coerce)` on one cell followed by an `isna`
test: `none` is NaN after coercion. The same model serves
`pd.to_datetime` for date cells. -/
def RawCell.coerced : RawCell α → Option α
  | .val a => some a
  | _ => none

/-- One row of the uploaded station CSV: `MonitoringLocationIdentifier`,
`LatitudeMeasure`, `LongitudeMeasure`. -/
structure RawStationRow where
  id : Ident
  lat : RawCell ℚ
  lon : RawCell ℚ
deriving DecidableEq, Repr

/-- One row of the uploaded narrow result CSV: the four columns the app
reads. The date cell holds a timestamp in seconds when parseable. -/
structure RawMeasRow where
  id : Ident
  characteristic : String
  date : RawCell ℕ
  value : RawCell ℚ
deriving DecidableEq, Repr

/-- One loaded measurement row (post `load_narrowresult_data`): date and
value are guaranteed parsed. -/
structure Meas where
  id : Ident
  characteristic : String
  ts : ℕ
  value : ℚ
deriving DecidableEq, Repr

/-! ## Dataset Loader (streamlit_app.py lines 9-24) -/

/-- `load_station_data`: read the CSV and
`dropna(subset = [LatitudeMeasure, LongitudeMeasure])`. Note that only
missing (NaN) coordinates are dropped here; a present but non-numeric
coordinate cell survives loading. -/
def load_station_data (rows : List RawStationRow) : List RawStationRow :=
  rows.filter (fun r => r.lat.present && r.lon.present)

/-- `load_narrowresult_data`: read the CSV, coerce `ActivityStartDate`
with `pd.to_datetime` and `ResultMeasureValue` with `pd.to_numeric`
(errors coerced to NaN), then `dropna` on both columns. -/
def load_narrowresult_data (rows : List RawMeasRow) : List Meas :=
  rows.filterMap (fun r =>
    match r.date.coerced, r.value.coerced with
    | some t, some v => some ⟨r.id, r.characteristic, t, v⟩
    | _, _ => none)

/-- Lines 45-46: rewrite `MonitoringLocationIdentifier` of the station
table with `.str.strip().str.lower()`. -/
def normalizeStationTable (rows : List RawStationRow) : List RawStationRow :=
  rows.map (fun r => { r with id := normalizeId r.id })

/-- Line 46: the same normalization on the measurement table. -/
def normalizeMeasTable (rows : List Meas) : List Meas :=
  rows.map (fun r => { r with id := normalizeId r.id })

/-! ## Filter Engine (streamlit_app.py lines 50-88) -/

/-- Seconds per day, the granularity at which `.dt.date` truncates. -/
def secondsPerDay : ℕ := 86400

/-- `.date()` of a timestamp: the calendar day, forgetting time-of-day. -/
def dateOf (ts : ℕ) : ℕ :=
  ts / secondsPerDay

/-- `pandas.unique`: distinct values in first-seen order (helper with an
accumulator of already-seen values). -/
def uniqueAux [DecidableEq α] (seen : List α) : List α → List α
  | [] => []
  | a :: rest =>
    if a ∈ seen then uniqueAux seen rest else a :: uniqueAux (a :: seen) rest

/-- `Series.unique()`: distinct values in first-seen order. -/
def uniqueList [DecidableEq α] (l : List α) : List α :=
  uniqueAux [] l

/-- Line 50: `narrowresult_df[CharacteristicName].unique()`, the options
of the contaminant select box. -/
def distinctCharacteristics (ms : List Meas) : List String :=
  uniqueList (ms.map (·.characteristic))

/-- Line 54: `narrowresult_df[narrowresult_df[CharacteristicName] == selected]`. -/
def filterChar (ms : List Meas) (c : String) : List Meas :=
  ms.filter (fun m => m.characteristic == c)

/-- Lines 54-56: the `filtered_initial.empty` check, which renders the
"no records" error and skips every widget and rendering below it. -/
def selectContaminant (ms : List Meas) (c : String) : Except String (List Meas) :=
  if filterChar ms c = [] then
    Except.error "No records found for the selected contaminant."
  else
    Except.ok (filterChar ms c)

/-- Lines 59-69: the widget bounds computed from `filtered_initial`:
`min`/`max` of `ResultMeasureValue`, and `.date()` of the `min`/`max`
of `ActivityStartDate`. `none` models the empty-selection branch, where
the bounds are never computed. -/
def bounds (ms : List Meas) (c : String) : Option (ℚ × ℚ × ℕ × ℕ) :=
  match filterChar ms c with
  | [] => none
  | m :: rest =>
    some (rest.foldl (fun a r => min a r.value) m.value,
          rest.foldl (fun a r => max a r.value) m.value,
          dateOf (rest.foldl (fun a r => min a r.ts) m.ts),
          dateOf (rest.foldl (fun a r => max a r.ts) m.ts))

/-- Lines 74-78: the result of `st.date_input`, which is a pair once the
user has picked both ends, and a single date (or an incomplete 1-tuple)
while the user is still picking. -/
inductive DateSelection where
  | single (d : ℕ)
  | oneTuple (d : ℕ)
  | range (a b : ℕ)
deriving DecidableEq, Repr

/-- Lines 74-78: `start_date, end_date = date_range` when the widget
yields a 2-tuple, otherwise fall back to the full bounds. -/
def effectiveDateRange (sel : DateSelection) (minDate maxDate : ℕ) : ℕ × ℕ :=
  match sel with
  | .range a b => (a, b)
  | .single _ => (minDate, maxDate)
  | .oneTuple _ => (minDate, maxDate)

/-- Lines 81-87: one row's boolean mask. -/
def rowMask (c : String) (lo hi : ℚ) (startDate endDate : ℕ) (m : Meas) : Bool :=
  m.characteristic == c && decide (lo ≤ m.value) && decide (m.value ≤ hi)
    && decide (startDate ≤ dateOf m.ts) && decide (dateOf m.ts ≤ endDate)

/-- Lines 81-88: `filtered_df = narrowresult_df[mask]`. -/
def applyFilter (ms : List Meas) (c : String) (vr : ℚ × ℚ) (dr : ℕ × ℕ) : List Meas :=
  ms.filter (rowMask c vr.1 vr.2 dr.1 dr.2)

/-! ## Station Resolver (streamlit_app.py lines 94-99) -/

/-- A station row after the coordinate coercion and `dropna` of lines
97-99: both coordinates are numeric. -/
structure Station where
  id : Ident
  lat : ℚ
  lon : ℚ
deriving DecidableEq, Repr

/-- Line 94: `filtered_df[MonitoringLocationIdentifier].unique()`. -/
def station_names (fs : List Meas) : List Ident :=
  uniqueList (fs.map (·.id))

/-- Lines 96-99: keep the station rows whose identifier `isin` the
filtered measurements' identifiers, coerce both coordinate columns with
`pd.to_numeric(errors = coerce)`, and `dropna` on both. -/
def resolve (stations : List RawStationRow) (fs : List Meas) : List Station :=
  (stations.filter (fun s => decide (s.id ∈ station_names fs))).filterMap
    (fun s =>
      match s.lat.coerced, s.lon.coerced with
      | some la, some lo => some ⟨s.id, la, lo⟩
      | _, _ => none)

/-! ## Map Renderer (streamlit_app.py lines 101-116) -/

/-- One `folium.Marker`: location and popup label. -/
structure Marker where
  lat : ℚ
  lon : ℚ
  popup : Ident
deriving DecidableEq, Repr

/-- The rendered `folium.Map`: its center and its markers in insertion
order. -/
structure MapView where
  centerLat : ℚ
  centerLon : ℚ
  markers : List Marker
deriving DecidableEq, Repr

/-- `Series.mean()`: sum divided by count. -/
def meanQ (l : List ℚ) : ℚ :=
  l.sum / l.length

/-- Lines 102-116: either the rendered map, or the informational
`st.write` message of the empty branch. -/
inductive MapOutput where
  | view : MapView → MapOutput
  | info : String → MapOutput
deriving DecidableEq, Repr

/-- Lines 102-116: `if not filtered_stations.empty:` build the centered
map and add one marker per station row; `else` write the informational
message. -/
def renderMap (rs : List Station) : MapOutput :=
  if rs.isEmpty then
    MapOutput.info "No stations found with the selected criteria for this characteristic."
  else
    MapOutput.view
      { centerLat := meanQ (rs.map (·.lat)),
        centerLon := meanQ (rs.map (·.lon)),
        markers := rs.map (fun s => { lat := s.lat, lon := s.lon, popup := s.id }) }

/-! ## Trend Renderer (streamlit_app.py lines 118-133) -/

/-- Boolean lexicographic comparison of identifiers (character code
order), the order in which `groupby` iterates its groups. -/
def lexLeB : Ident → Ident → Bool
  | [], _ => true
  | _ :: _, [] => false
  | a :: as, b :: bs => if a = b then lexLeB as bs else decide (a < b)

/-- The group iteration order of `groupby`, as a relation. -/
def lexLe (a b : Ident) : Prop :=
  lexLeB a b = true

instance : DecidableRel lexLe := fun a b => instDecidableEqBool (lexLeB a b) true

/-- The ascending-date order used by `sort_values(ActivityStartDate)`. -/
def dateLe (a b : Meas) : Prop :=
  a.ts ≤ b.ts

instance : DecidableRel dateLe := fun a b => Nat.decLe a.ts b.ts

instance : IsTotal Meas dateLe := ⟨fun a b => Nat.le_total a.ts b.ts⟩

instance : IsTrans Meas dateLe := ⟨fun _ _ _ h1 h2 => Nat.le_trans h1 h2⟩

/-- `sort_values(ActivityStartDate)`: ascending sort by date. -/
def sortByDate (g : List Meas) : List Meas :=
  g.insertionSort dateLe

/-- Lines 121-127: `filtered_df.groupby(MonitoringLocationIdentifier)`
iterated in sorted key order, each group sorted by `ActivityStartDate`;
one plotted series per group, labeled by the group key. -/
def trendSeries (fs : List Meas) : List (Ident × List Meas) :=
  ((uniqueList (fs.map (·.id))).insertionSort lexLe).map
    (fun k => (k, sortByDate (fs.filter (fun m => m.id == k))))

/-! ## Helper lemmas -/

theorem mem_uniqueAux [DecidableEq α] (x : α) (l : List α) :
    ∀ seen, x ∈ uniqueAux seen l ↔ x ∈ l ∧ x ∉ seen := by
  induction l with
  | nil =>
    intro seen
    simp [uniqueAux]
  | cons a t ih =>
    intro seen
    by_cases h : a ∈ seen
    · rw [uniqueAux, if_pos h, ih seen, List.mem_cons]
      constructor
      · rintro ⟨hx, hs⟩
        exact ⟨Or.inr hx, hs⟩
      · rintro ⟨hx | hx, hs⟩
        · subst hx
          exact absurd h hs
        · exact ⟨hx, hs⟩
    · rw [uniqueAux, if_neg h, List.mem_cons, ih (a :: seen)]
      simp only [List.mem_cons]
      constructor
      · rintro (rfl | ⟨hx, hs⟩)
        · exact ⟨Or.inl rfl, h⟩
        · exact ⟨Or.inr hx, fun hc => hs (Or.inr hc)⟩
      · rintro ⟨hx | hx, hs⟩
        · exact Or.inl hx
        · by_cases hxa : x = a
          · exact Or.inl hxa
          · exact Or.inr ⟨hx, fun hc => (hc.elim hxa hs)⟩

theorem mem_uniqueList [DecidableEq α] (x : α) (l : List α) :
    x ∈ uniqueList l ↔ x ∈ l := by
  rw [uniqueList, mem_uniqueAux]
  simp

theorem nodup_uniqueAux [DecidableEq α] (l : List α) :
    ∀ seen, (uniqueAux seen l).Nodup := by
  induction l with
  | nil =>
    intro seen
    exact List.nodup_nil
  | cons a t ih =>
    intro seen
    by_cases h : a ∈ seen
    · rw [uniqueAux, if_pos h]
      exact ih seen
    · rw [uniqueAux, if_neg h, List.nodup_cons]
      refine ⟨fun hc => ?_, ih (a :: seen)⟩
      rw [mem_uniqueAux] at hc
      exact hc.2 (List.mem_cons_self a seen)

theorem nodup_uniqueList [DecidableEq α] (l : List α) : (uniqueList l).Nodup :=
  nodup_uniqueAux l []

theorem foldl_min_le_init [LinearOrder α] (l : List α) :
    ∀ a : α, l.foldl min a ≤ a := by
  induction l with
  | nil =>
    intro a
    exact le_refl a
  | cons b t ih =>
    intro a
    calc (b :: t).foldl min a = t.foldl min (min a b) := rfl
    _ ≤ min a b := ih (min a b)
    _ ≤ a := min_le_left a b

theorem foldl_min_le_mem [LinearOrder α] {x : α} (l : List α) :
    ∀ a : α, x ∈ l → l.foldl min a ≤ x := by
  induction l with
  | nil =>
    intro a h
    exact absurd h (List.not_mem_nil x)
  | cons b t ih =>
    intro a h
    rcases List.mem_cons.mp h with rfl | hx
    · calc (x :: t).foldl min a = t.foldl min (min a x) := rfl
      _ ≤ min a x := foldl_min_le_init t (min a x)
      _ ≤ x := min_le_right a x
    · exact ih (min a b) hx

theorem foldl_min_eq_init_or_mem [LinearOrder α] (l : List α) :
    ∀ a : α, l.foldl min a = a ∨ l.foldl min a ∈ l := by
  induction l with
  | nil =>
    intro a
    exact Or.inl rfl
  | cons b t ih =>
    intro a
    rcases ih (min a b) with h | h
    · rcases min_choice a b with hab | hab
      · exact Or.inl (by rw [show (b :: t).foldl min a = t.foldl min (min a b) from rfl, h, hab])
      · refine Or.inr ?_
        rw [show (b :: t).foldl min a = t.foldl min (min a b) from rfl, h, hab]
        exact List.mem_cons_self b t
    · exact Or.inr (List.mem_cons_of_mem b h)

theorem foldl_max_le_init [LinearOrder α] (l : List α) :
    ∀ a : α, a ≤ l.foldl max a := by
  induction l with
  | nil =>
    intro a
    exact le_refl a
  | cons b t ih =>
    intro a
    calc a ≤ max a b := le_max_left a b
    _ ≤ t.foldl max (max a b) := ih (max a b)
    _ = (b :: t).foldl max a := rfl

theorem foldl_max_le_mem [LinearOrder α] {x : α} (l : List α) :
    ∀ a : α, x ∈ l → x ≤ l.foldl max a := by
  induction l with
  | nil =>
    intro a h
    exact absurd h (List.not_mem_nil x)
  | cons b t ih =>
    intro a h
    rcases List.mem_cons.mp h with rfl | hx
    · calc x ≤ max a x := le_max_right a x
      _ ≤ t.foldl max (max a x) := foldl_max_le_init t (max a x)
      _ = (x :: t).foldl max a := rfl
    · exact ih (max a b) hx

theorem foldl_max_eq_init_or_mem [LinearOrder α] (l : List α) :
    ∀ a : α, l.foldl max a = a ∨ l.foldl max a ∈ l := by
  induction l with
  | nil =>
    intro a
    exact Or.inl rfl
  | cons b t ih =>
    intro a
    rcases ih (max a b) with h | h
    · rcases max_choice a b with hab | hab
      · exact Or.inl (by rw [show (b :: t).foldl max a = t.foldl max (max a b) from rfl, h, hab])
      · refine Or.inr ?_
        rw [show (b :: t).foldl max a = t.foldl max (max a b) from rfl, h, hab]
        exact List.mem_cons_self b t
    · exact Or.inr (List.mem_cons_of_mem b h)

theorem dateOf_mono {a b : ℕ} (h : a ≤ b) : dateOf a ≤ dateOf b :=
  Nat.div_le_div_right h

theorem bounds_eq_none_iff (ms : List Meas) (c : String) :
    bounds ms c = none ↔ filterChar ms c = [] := by
  unfold bounds
  cases h : filterChar ms c with
  | nil => simp
  | cons m rest => simp

theorem bounds_some_spec (ms : List Meas) (c : String) (vmin vmax : ℚ) (dmin dmax : ℕ)
    (h : bounds ms c = some (vmin, vmax, dmin, dmax)) :
    ((∃ y ∈ filterChar ms c, y.value = vmin) ∧ (∀ y ∈ filterChar ms c, vmin ≤ y.value)) ∧
    ((∃ y ∈ filterChar ms c, y.value = vmax) ∧ (∀ y ∈ filterChar ms c, y.value ≤ vmax)) ∧
    ((∃ y ∈ filterChar ms c, dateOf y.ts = dmin) ∧
      (∀ y ∈ filterChar ms c, dmin ≤ dateOf y.ts)) ∧
    ((∃ y ∈ filterChar ms c, dateOf y.ts = dmax) ∧
      (∀ y ∈ filterChar ms c, dateOf y.ts ≤ dmax)) := by
  unfold bounds at h
  cases hfc : filterChar ms c with
  | nil =>
    rw [hfc] at h
    exact absurd h (by simp)
  | cons m rest =>
    rw [hfc] at h
    simp only [Option.some.injEq, Prod.mk.injEq] at h
    obtain ⟨h1, h2, h3, h4⟩ := h
    rw [← List.foldl_map (·.value) min rest m.value] at h1
    rw [← List.foldl_map (·.value) max rest m.value] at h2
    rw [← List.foldl_map (·.ts) min rest m.ts] at h3
    rw [← List.foldl_map (·.ts) max rest m.ts] at h4
    refine ⟨⟨?_, ?_⟩, ⟨?_, ?_⟩, ⟨?_, ?_⟩, ⟨?_, ?_⟩⟩
    · rcases foldl_min_eq_init_or_mem (rest.map (·.value)) m.value with he | he
      · exact ⟨m, List.mem_cons_self m rest, by rw [← h1, he]⟩
      · obtain ⟨y, hy, hyv⟩ := List.mem_map.mp he
        exact ⟨y, List.mem_cons_of_mem m hy, by rw [← h1, hyv]⟩
    · intro y hy
      rcases List.mem_cons.mp hy with rfl | hy
      · rw [← h1]
        exact foldl_min_le_init _ _
      · rw [← h1]
        exact foldl_min_le_mem _ _ (List.mem_map_of_mem (·.value) hy)
    · rcases foldl_max_eq_init_or_mem (rest.map (·.value)) m.value with he | he
      · exact ⟨m, List.mem_cons_self m rest, by rw [← h2, he]⟩
      · obtain ⟨y, hy, hyv⟩ := List.mem_map.mp he
        exact ⟨y, List.mem_cons_of_mem m hy, by rw [← h2, hyv]⟩
    · intro y hy
      rcases List.mem_cons.mp hy with rfl | hy
      · rw [← h2]
        exact foldl_max_le_init _ _
      · rw [← h2]
        exact foldl_max_le_mem _ _ (List.mem_map_of_mem (·.value) hy)
    · rcases foldl_min_eq_init_or_mem (rest.map (·.ts)) m.ts with he | he
      · exact ⟨m, List.mem_cons_self m rest, by rw [← h3, he]⟩
      · obtain ⟨y, hy, hyv⟩ := List.mem_map.mp he
        exact ⟨y, List.mem_cons_of_mem m hy, by rw [← h3, hyv]⟩
    · intro y hy
      rw [← h3]
      rcases List.mem_cons.mp hy with rfl | hy
      · exact dateOf_mono (foldl_min_le_init _ _)
      · exact dateOf_mono (foldl_min_le_mem _ _ (List.mem_map_of_mem (·.ts) hy))
    · rcases foldl_max_eq_init_or_mem (rest.map (·.ts)) m.ts with he | he
      · exact ⟨m, List.mem_cons_self m rest, by rw [← h4, he]⟩
      · obtain ⟨y, hy, hyv⟩ := List.mem_map.mp he
        exact ⟨y, List.mem_cons_of_mem m hy, by rw [← h4, hyv]⟩
    · intro y hy
      rw [← h4]
      rcases List.mem_cons.mp hy with rfl | hy
      · exact dateOf_mono (foldl_max_le_init _ _)
      · exact dateOf_mono (foldl_max_le_mem _ _ (List.mem_map_of_mem (·.ts) hy))

/-! ## Example data (spec section 8 scenario, small timestamps) -/

/-- Three Lead measurements at stations `s1`, `s1`, `s2`, on days 0, 2
and 1 respectively (the day-1 timestamp has a nonzero time of day). -/
def exMeasurements : List Meas :=
  [{ id := ['s', '1'], characteristic := "Lead", ts := 100, value := 5 },
   { id := ['s', '1'], characteristic := "Lead", ts := 200000, value := 15 },
   { id := ['s', '2'], characteristic := "Lead", ts := 86460, value := 10 }]

/-- Two station rows: `s1` with numeric coordinates, `s2` with a missing
latitude. -/
def exStations : List RawStationRow :=
  [{ id := ['s', '1'], lat := RawCell.val 40, lon := RawCell.val (-75) },
   { id := ['s', '2'], lat := RawCell.missing, lon := RawCell.val (-76) }]

/-! ## Claims -/

/-- C1: a measurement row of the loaded table appears in the output of
the filter (lines 81-88) iff its characteristic equals the selected one,
its value lies in the inclusive value range, and its activity date lies
in the inclusive date range; the date comparison is at day granularity
(`dateOf`), so changing only the time of day never changes the mask. -/
theorem c1_apply_filter_membership (ms : List Meas) (c : String) (lo hi : ℚ) (sd ed : ℕ)
    (m : Meas) :
    (m ∈ applyFilter ms c (lo, hi) (sd, ed) ↔
      m ∈ ms ∧ m.characteristic = c ∧ (lo ≤ m.value ∧ m.value ≤ hi) ∧
        (sd ≤ dateOf m.ts ∧ dateOf m.ts ≤ ed)) ∧
    (∀ t : ℕ, dateOf t = dateOf m.ts →
      rowMask c lo hi sd ed { m with ts := t } = rowMask c lo hi sd ed m) := by
  constructor
  · simp only [applyFilter, rowMask, List.mem_filter, Bool.and_eq_true, decide_eq_true_eq,
      beq_iff_eq]
    tauto
  · intro t ht
    simp only [rowMask, ht]

/-- C2: filtering with the widgets at their full default bounds (the
min/max value and min/max date of the selected characteristic, lines
59-69) returns exactly the rows of that characteristic: the range and
date predicates exclude nothing. -/
theorem c2_default_range_roundtrip (ms : List Meas) (c : String) (vmin vmax : ℚ)
    (dmin dmax : ℕ) (h : bounds ms c = some (vmin, vmax, dmin, dmax)) :
    applyFilter ms c (vmin, vmax) (dmin, dmax) = filterChar ms c := by
  obtain ⟨⟨-, hminv⟩, ⟨-, hmaxv⟩, ⟨-, hmind⟩, ⟨-, hmaxd⟩⟩ :=
    bounds_some_spec ms c vmin vmax dmin dmax h
  unfold applyFilter filterChar
  apply List.filter_congr
  intro m hm
  by_cases hc : m.characteristic = c
  · have hmem : m ∈ filterChar ms c :=
      List.mem_filter.mpr ⟨hm, beq_iff_eq.mpr hc⟩
    have h1 : decide (vmin ≤ m.value) = true := decide_eq_true (hminv m hmem)
    have h2 : decide (m.value ≤ vmax) = true := decide_eq_true (hmaxv m hmem)
    have h3 : decide (dmin ≤ dateOf m.ts) = true := decide_eq_true (hmind m hmem)
    have h4 : decide (dateOf m.ts ≤ dmax) = true := decide_eq_true (hmaxd m hmem)
    show (m.characteristic == c && _ && _ && _ && _) = (m.characteristic == c)
    rw [h1, h2, h3, h4]
    simp
  · have hf : (m.characteristic == c) = false := beq_eq_false_iff_ne.mpr hc
    show (m.characteristic == c && _ && _ && _ && _) = (m.characteristic == c)
    rw [hf]
    rfl

/-- C2 witness: on the example data, the full default range
`(5, 15) × [day 0, day 2]` recovers exactly the Lead rows. -/
theorem c2_witness :
    applyFilter exMeasurements "Lead" (5, 15) (0, 2) = filterChar exMeasurements "Lead" :=
  c2_default_range_roundtrip exMeasurements "Lead" 5 15 0 2 (by decide)

/-- C3: the widget bounds of lines 59-69 are computed over exactly the
rows matching the selected characteristic: they are attained minima and
maxima of those rows' values and (day-granularity) dates; when no row
matches, no bounds exist (`none`) and the app takes the user-visible
error branch of lines 55-56, skipping the widgets and all rendering. -/
theorem c3_bounds_minmax (ms : List Meas) (c : String) :
    (bounds ms c = none ↔ filterChar ms c = []) ∧
    (filterChar ms c = [] →
      selectContaminant ms c =
        Except.error "No records found for the selected contaminant.") ∧
    (∀ vmin vmax : ℚ, ∀ dmin dmax : ℕ,
      bounds ms c = some (vmin, vmax, dmin, dmax) →
      ((∃ y ∈ filterChar ms c, y.value = vmin) ∧ (∀ y ∈ filterChar ms c, vmin ≤ y.value)) ∧
      ((∃ y ∈ filterChar ms c, y.value = vmax) ∧ (∀ y ∈ filterChar ms c, y.value ≤ vmax)) ∧
      ((∃ y ∈ filterChar ms c, dateOf y.ts = dmin) ∧
        (∀ y ∈ filterChar ms c, dmin ≤ dateOf y.ts)) ∧
      ((∃ y ∈ filterChar ms c, dateOf y.ts = dmax) ∧
        (∀ y ∈ filterChar ms c, dateOf y.ts ≤ dmax))) := by
  refine ⟨bounds_eq_none_iff ms c, fun he => ?_, fun vmin vmax dmin dmax h =>
    bounds_some_spec ms c vmin vmax dmin dmax h⟩
  rw [selectContaminant, if_pos he]

/-- C3 witness: on the example data the value minimum 5 is attained. -/
theorem c3_witness : ∃ y ∈ filterChar exMeasurements "Lead", y.value = 5 :=
  (((c3_bounds_minmax exMeasurements "Lead").2.2 5 15 0 2 (by decide)).1).1

/-! ### The `CharacteristicName` cell kept raw (for C10)

`load_narrowresult_data` (lines 20-23) coerces and `dropna`s only
`ActivityStartDate` and `ResultMeasureValue`: a row whose
`CharacteristicName` cell is missing survives loading as NaN. `Meas`
above models rows with a present characteristic; the refinement below
keeps the possibly-missing cell, since line 50's `unique()` offers NaN
as a select box option and pandas `==` treats NaN as unequal to
everything, itself included. -/

/-- One row of the uploaded narrow result CSV with the
`CharacteristicName` cell kept raw: `none` is NaN. -/
structure RawMeasRowNaN where
  id : Ident
  characteristic : Option String
  date : RawCell ℕ
  value : RawCell ℚ
deriving DecidableEq, Repr

/-- A loaded measurement row with its possibly-missing
`CharacteristicName` cell. -/
structure MeasNaN where
  id : Ident
  characteristic : Option String
  ts : ℕ
  value : ℚ
deriving DecidableEq, Repr

/-- `load_narrowresult_data` on rows with a raw `CharacteristicName`
cell: lines 20-23 coerce and drop only the date and value columns, so
the characteristic cell passes through, NaN included. -/
def load_narrowresult_dataNaN (rows : List RawMeasRowNaN) : List MeasNaN :=
  rows.filterMap (fun r =>
    match r.date.coerced, r.value.coerced with
    | some t, some v => some ⟨r.id, r.characteristic, t, v⟩
    | _, _ => none)

/-- Pandas `==` between a `CharacteristicName` cell and the selected
option: NaN compares unequal to everything, itself included. -/
def charCellEq (a b : Option String) : Bool :=
  match a, b with
  | some x, some y => x == y
  | _, _ => false

/-- Line 50 on the raw-cell table: the select box options, NaN
included when some row's `CharacteristicName` is missing. -/
def distinctCharacteristicsNaN (ms : List MeasNaN) : List (Option String) :=
  uniqueList (ms.map (·.characteristic))

/-- Line 54 on the raw-cell table: elementwise `==` against the
selected option. -/
def filterCharNaN (ms : List MeasNaN) (c : Option String) : List MeasNaN :=
  ms.filter (fun m => charCellEq m.characteristic c)

/-- Lines 54-56 on the raw-cell table: the `filtered_initial.empty`
check. -/
def selectContaminantNaN (ms : List MeasNaN) (c : Option String) :
    Except String (List MeasNaN) :=
  if filterCharNaN ms c = [] then
    Except.error "No records found for the selected contaminant."
  else
    Except.ok (filterCharNaN ms c)

/-- Lines 59-69 on the raw-cell table: the widget bounds. -/
def boundsNaN (ms : List MeasNaN) (c : Option String) : Option (ℚ × ℚ × ℕ × ℕ) :=
  match filterCharNaN ms c with
  | [] => none
  | m :: rest =>
    some (rest.foldl (fun a r => min a r.value) m.value,
          rest.foldl (fun a r => max a r.value) m.value,
          dateOf (rest.foldl (fun a r => min a r.ts) m.ts),
          dateOf (rest.foldl (fun a r => max a r.ts) m.ts))

/-- The example rows of `exMeasurements`, with their present
characteristic cells. -/
def exMeasurementsNaN : List MeasNaN :=
  [{ id := ['s', '1'], characteristic := some "Lead", ts := 100, value := 5 },
   { id := ['s', '1'], characteristic := some "Lead", ts := 200000, value := 15 },
   { id := ['s', '2'], characteristic := some "Lead", ts := 86460, value := 10 }]

/-- C10 counterexample: a row with a missing `CharacteristicName`
survives the load of lines 20-23, `unique()` then offers NaN among the
select box options (line 50), and selecting it matches zero rows (NaN
is unequal even to itself), so the lines 55-56 empty-selection branch
runs for an offered selection — refuting its unreachability. -/
theorem c10_counterexample :
    load_narrowresult_dataNaN
        [{ id := ['s', '1'], characteristic := none,
           date := RawCell.val 100, value := RawCell.val 5 }] =
        [{ id := ['s', '1'], characteristic := none, ts := 100, value := 5 }] ∧
      (none : Option String) ∈ distinctCharacteristicsNaN
        [{ id := ['s', '1'], characteristic := none, ts := 100, value := 5 }] ∧
      selectContaminantNaN
          [{ id := ['s', '1'], characteristic := none, ts := 100, value := 5 }] none =
        Except.error "No records found for the selected contaminant." := by
  refine ⟨rfl, by decide, rfl⟩

/-- C10 amended: the empty-selection branch of lines 55-56 is
unreachable for every present (non-NaN) characteristic offered by the
select box: such a selection matches at least one loaded row, so the
bounds exist and the ok branch is taken. (When the table has a row with
a missing `CharacteristicName`, the select box also offers NaN, and
selecting it does reach the branch — see the counterexample.) -/
theorem c10_empty_branch_unreachable_for_present (ms : List MeasNaN) (c : String)
    (h : some c ∈ distinctCharacteristicsNaN ms) :
    filterCharNaN ms (some c) ≠ [] ∧ (boundsNaN ms (some c)).isSome = true ∧
      selectContaminantNaN ms (some c) = Except.ok (filterCharNaN ms (some c)) := by
  have hmem : some c ∈ ms.map (·.characteristic) := by
    rw [distinctCharacteristicsNaN, mem_uniqueList] at h
    exact h
  obtain ⟨m, hm, hmc⟩ := List.mem_map.mp hmem
  have hfc : m ∈ filterCharNaN ms (some c) := by
    refine List.mem_filter.mpr ⟨hm, ?_⟩
    rw [hmc]
    show (c == c) = true
    exact beq_self_eq_true c
  have hne : filterCharNaN ms (some c) ≠ [] := List.ne_nil_of_mem hfc
  refine ⟨hne, ?_, ?_⟩
  · unfold boundsNaN
    cases hfl : filterCharNaN ms (some c) with
    | nil => exact absurd hfl hne
    | cons y rest => rfl
  · rw [selectContaminantNaN, if_neg hne]

/-- C10 witness: "Lead" is an offered present characteristic of the
example data, and the non-error branch is taken. -/
theorem c10_witness :
    filterCharNaN exMeasurementsNaN (some "Lead") ≠ [] ∧
      (boundsNaN exMeasurementsNaN (some "Lead")).isSome = true ∧
      selectContaminantNaN exMeasurementsNaN (some "Lead") =
        Except.ok (filterCharNaN exMeasurementsNaN (some "Lead")) :=
  c10_empty_branch_unreachable_for_present exMeasurementsNaN "Lead" (by decide)

/-- C1 witness: the filter/mask characterization and the time-of-day
invariance, evaluated on a concrete row (day 1, 30 seconds later). -/
theorem c1_witness :
    rowMask "Lead" 5 15 0 2
        { id := ['s', '2'], characteristic := "Lead", ts := 86490, value := 10 } =
      rowMask "Lead" 5 15 0 2
        { id := ['s', '2'], characteristic := "Lead", ts := 86460, value := 10 } :=
  (c1_apply_filter_membership exMeasurements "Lead" 5 15 0 2
    { id := ['s', '2'], characteristic := "Lead", ts := 86460, value := 10 }).2
    86490 (by decide)

/-- C4: identifier normalization rewrites the station-identifier field of
both tables by trim-then-lowercase, and is idempotent, both per string
and per table. -/
theorem c4_normalize_idempotent :
    (∀ s : Ident, normalizeId (normalizeId s) = normalizeId s) ∧
    (∀ st : List RawStationRow,
      normalizeStationTable st = st.map (fun r => { r with id := normalizeId r.id })) ∧
    (∀ ms : List Meas,
      normalizeMeasTable ms = ms.map (fun r => { r with id := normalizeId r.id })) ∧
    (∀ st : List RawStationRow,
      normalizeStationTable (normalizeStationTable st) = normalizeStationTable st) ∧
    (∀ ms : List Meas,
      normalizeMeasTable (normalizeMeasTable ms) = normalizeMeasTable ms) := by
  refine ⟨normalizeId_idem, fun st => rfl, fun ms => rfl, fun st => ?_, fun ms => ?_⟩
  · rw [normalizeStationTable, normalizeStationTable, List.map_map]
    apply List.map_congr_left
    intro r _
    show ({ r with id := normalizeId (normalizeId r.id) } : RawStationRow) = _
    rw [normalizeId_idem]
  · rw [normalizeMeasTable, normalizeMeasTable, List.map_map]
    apply List.map_congr_left
    intro r _
    show ({ r with id := normalizeId (normalizeId r.id) } : Meas) = _
    rw [normalizeId_idem]

/-- C6 counterexample: a station row whose latitude cell is present but
not numeric survives `load_station_data` (the load only drops NaN
coordinates), refuting "every row of the in-memory station table has a
present and numeric latitude and longitude". -/
theorem c6_counterexample :
    load_station_data [{ id := ['s'], lat := RawCell.bad, lon := RawCell.val 0 }] =
        [{ id := ['s'], lat := RawCell.bad, lon := RawCell.val 0 }] ∧
      (RawCell.bad : RawCell ℚ).coerced = none := by
  exact ⟨rfl, rfl⟩

/-- C6 amended: after station load every row has a present (non-missing)
latitude and longitude — exactly the rows with a missing coordinate are
excluded at load time; numeric coercion only happens later, at station
resolution. -/
theorem c6_station_load_drops_missing (rows : List RawStationRow) (r : RawStationRow) :
    r ∈ load_station_data rows ↔
      r ∈ rows ∧ r.lat.present = true ∧ r.lon.present = true := by
  simp [load_station_data, List.mem_filter, and_assoc]

/-- C7: with the date bounds of the selected characteristic in hand
(lines 59-69), a non-pair widget result (a single date, or an incomplete
1-tuple) falls back to the full bounds `(dateMin, dateMax)`, while a pair
is used as `(start, end)` (lines 74-78). -/
theorem c7_date_widget_fallback (ms : List Meas) (c : String) (vmin vmax : ℚ)
    (dmin dmax : ℕ) (_h : bounds ms c = some (vmin, vmax, dmin, dmax)) :
    (∀ d, effectiveDateRange (DateSelection.single d) dmin dmax = (dmin, dmax)) ∧
    (∀ d, effectiveDateRange (DateSelection.oneTuple d) dmin dmax = (dmin, dmax)) ∧
    (∀ a b, effectiveDateRange (DateSelection.range a b) dmin dmax = (a, b)) :=
  ⟨fun _ => rfl, fun _ => rfl, fun _ _ => rfl⟩

/-- C7 witness: on the example data, a lone date 1 falls back to the full
day range (0, 2) of the Lead rows. -/
theorem c7_witness :
    effectiveDateRange (DateSelection.single 1) 0 2 = (0, 2) :=
  (c7_date_widget_fallback exMeasurements "Lead" 5 15 0 2 (by decide)).1 1

/-- C8: for a non-empty resolved station set, the map is centered at the
arithmetic mean of the latitudes and of the longitudes, with one marker
per station at its coordinate, labeled by its (normalized) identifier
(lines 102-114). -/
theorem c8_map_center_and_markers (rs : List Station) (h : rs ≠ []) :
    renderMap rs = MapOutput.view
      { centerLat := (rs.map (·.lat)).sum / rs.length,
        centerLon := (rs.map (·.lon)).sum / rs.length,
        markers := rs.map (fun s => { lat := s.lat, lon := s.lon, popup := s.id }) } := by
  have hlat : meanQ (rs.map (·.lat)) = (rs.map (·.lat)).sum / rs.length := by
    rw [meanQ, List.length_map]
  have hlon : meanQ (rs.map (·.lon)) = (rs.map (·.lon)).sum / rs.length := by
    rw [meanQ, List.length_map]
  rw [renderMap, if_neg (fun he => h (List.isEmpty_iff.mp he)), hlat, hlon]

/-- C8 witness: a one-station set renders a map centered on that station
with a single labeled marker. -/
theorem c8_witness :
    renderMap [{ id := ['s', '1'], lat := 40, lon := -75 }] =
      MapOutput.view
        { centerLat := 40, centerLon := -75,
          markers := [{ lat := 40, lon := -75, popup := ['s', '1'] }] } := by
  rw [c8_map_center_and_markers [{ id := ['s', '1'], lat := 40, lon := -75 }] (by decide)]
  norm_num

/-- C9: the trend renderer partitions the filtered rows by station
identifier — one series per distinct identifier occurring in the
filtered set (whether or not the station has valid coordinates: the
input is the filtered measurement set, not the resolved station set) —
and each series is exactly that station's rows, sorted ascending by
activity date (lines 118-127). -/
theorem c9_trend_partition (fs : List Meas) :
    ((trendSeries fs).map Prod.fst).Nodup ∧
    (∀ i : Ident, i ∈ (trendSeries fs).map Prod.fst ↔ i ∈ fs.map (·.id)) ∧
    (∀ p, p ∈ trendSeries fs →
      p.2.Perm (fs.filter (fun m => m.id == p.1)) ∧
      List.Pairwise (fun a b : Meas => a.ts ≤ b.ts) p.2) := by
  have hkeys : (trendSeries fs).map Prod.fst =
      (uniqueList (fs.map (·.id))).insertionSort lexLe := by
    rw [trendSeries, List.map_map]
    exact List.map_id _
  refine ⟨?_, ?_, ?_⟩
  · rw [hkeys]
    exact (List.Perm.nodup_iff (List.perm_insertionSort lexLe _)).mpr (nodup_uniqueList _)
  · intro i
    rw [hkeys, List.Perm.mem_iff (List.perm_insertionSort lexLe _), mem_uniqueList]
  · intro p hp
    rw [trendSeries] at hp
    obtain ⟨k, hk, rfl⟩ := List.mem_map.mp hp
    exact ⟨List.perm_insertionSort dateLe _, List.sorted_insertionSort dateLe _⟩

/-- C9 witness: on the example data, the `s1` series is that station's
two rows in ascending date order. -/
theorem c9_witness :
    ([{ id := ['s', '1'], characteristic := "Lead", ts := 100, value := 5 },
      { id := ['s', '1'], characteristic := "Lead", ts := 200000, value := 15 }] :
        List Meas).Perm
        (exMeasurements.filter (fun m => m.id == ['s', '1'])) ∧
      List.Pairwise (fun a b : Meas => a.ts ≤ b.ts)
        [{ id := ['s', '1'], characteristic := "Lead", ts := 100, value := 5 },
         { id := ['s', '1'], characteristic := "Lead", ts := 200000, value := 15 }] :=
  (c9_trend_partition exMeasurements).2.2
    (⟨['s', '1'],
      [{ id := ['s', '1'], characteristic := "Lead", ts := 100, value := 5 },
       { id := ['s', '1'], characteristic := "Lead", ts := 200000, value := 15 }]⟩)
    (by decide)

theorem filterMap_if (p : α → Bool) (f : α → β) (l : List α) :
    l.filterMap (fun a => if p a then some (f a) else none) = (l.filter p).map f := by
  induction l with
  | nil => rfl
  | cons a t ih =>
    by_cases h : p a = true
    · simp only [List.filterMap_cons, List.filter_cons, h, if_true, ih, List.map_cons]
    · rw [Bool.not_eq_true] at h
      simp only [List.filterMap_cons, List.filter_cons, h, if_false, ih, Bool.false_eq_true]

theorem coerce_station_eq (s : RawStationRow) :
    (match s.lat.coerced, s.lon.coerced with
      | some la, some lo => some ({ id := s.id, lat := la, lon := lo } : Station)
      | _, _ => none) =
      (if (s.lat.coerced).isSome && (s.lon.coerced).isSome then
        some ({ id := s.id, lat := (s.lat.coerced).getD 0,
                lon := (s.lon.coerced).getD 0 } : Station)
      else none) := by
  cases hla : s.lat.coerced with
  | none => cases hlo : s.lon.coerced <;> rfl
  | some la => cases hlo : s.lon.coerced <;> rfl

/-- C5: station resolution returns exactly the station rows whose
identifier occurs among the filtered measurements' identifiers and whose
latitude and longitude both coerce to numbers (lines 94-99): a station
with a missing or non-numeric coordinate is dropped even when
referenced. An empty resolution is an ordinary empty set: the map branch
renders the informational message of line 116, not an error. -/
theorem c5_station_resolution (stations : List RawStationRow) (fs : List Meas) :
    resolve stations fs =
      (stations.filter (fun s => decide (s.id ∈ fs.map (·.id)) &&
          (s.lat.coerced).isSome && (s.lon.coerced).isSome)).map
        (fun s => { id := s.id, lat := (s.lat.coerced).getD 0,
                    lon := (s.lon.coerced).getD 0 }) ∧
    (resolve stations fs = [] →
      renderMap (resolve stations fs) =
        MapOutput.info
          "No stations found with the selected criteria for this characteristic.") := by
  constructor
  · rw [resolve]
    rw [show (fun s : RawStationRow =>
        (match s.lat.coerced, s.lon.coerced with
          | some la, some lo => some ({ id := s.id, lat := la, lon := lo } : Station)
          | _, _ => none)) =
        (fun s : RawStationRow =>
          if (s.lat.coerced).isSome && (s.lon.coerced).isSome then
            some ({ id := s.id, lat := (s.lat.coerced).getD 0,
                    lon := (s.lon.coerced).getD 0 } : Station)
          else none) from funext coerce_station_eq]
    rw [filterMap_if, List.filter_filter]
    congr 1
    apply List.filter_congr
    intro s _
    have hmem : decide (s.id ∈ station_names fs) = decide (s.id ∈ fs.map (·.id)) := by
      show decide (s.id ∈ uniqueList (fs.map (·.id))) = decide (s.id ∈ fs.map (·.id))
      exact decide_eq_decide.mpr (mem_uniqueList s.id (fs.map (·.id)))
    rw [hmem, Bool.and_comm, Bool.and_assoc]
  · intro he
    rw [he]
    rfl

/-- C5 witness: a station unreferenced by any filtered measurement
resolves to the empty set, and the map branch reports it as an
informational message. -/
theorem c5_witness :
    renderMap
        (resolve [{ id := ['s', '9'], lat := RawCell.val 1, lon := RawCell.val 2 }]
          exMeasurements) =
      MapOutput.info
        "No stations found with the selected criteria for this characteristic." :=
  (c5_station_resolution
    [{ id := ['s', '9'], lat := RawCell.val 1, lon := RawCell.val 2 }]
    exMeasurements).2 (by decide)

end Lab10
